import Mathlib

/-!
Shallow embedding of `src/app.py` (Painel de Busca de Comprovantes):
a dashboard that fetches payment receipts from a paginated backend,
filters them by a free-text search term, groups them by payee id
(`cnpj_recebedor`) and transfer date, flattens a selection in descending
date order, sums the amounts, and merges each receipt's linked PDF into
one document.

Modelling conventions:
- a Supabase row is a record whose selected columns are always present but
  may be `null`; nullable columns become `Option` fields;
- Python string lowercasing is modelled per-character (ASCII case folding),
  and the `in` operator as contiguous-sublist containment on characters;
- transfer dates `YYYY-MM-DD` are parsed to the number `y*10000+m*100+d`,
  which is injective on the dates `strptime` accepts, so equality and
  chronological order of date keys coincide with the Python dict keys and
  `sorted(..., key=strptime)`;
- amounts are exact rationals; since the `valor` column is always in the
  select, `item.get('valor', 0)` yields `None` (never the default 0) for
  a null amount, and the `TypeError` this raises in the total and in the
  per-receipt rendering is modelled as `none`; currency formatting
  mirrors the `f"{v:,.2f}"`-then-swap-separators pipeline of the source;
- the two network effects (Supabase pages, PDF downloads) are oracles
  passed as functions; Python exceptions become explicit result values,
  and a statement that a Python loop terminates is expressed with fuel.
-/

structure Receipt where
  nome_recebedor : Option String
  cnpj_recebedor : Option String
  chave_pix : Option String
  data_transferencia : String
  valor : Option ℚ
  pdf_url : Option String
deriving DecidableEq, Repr

/-- Python `str.lower()` on the character list (ASCII case folding). -/
def lowerL (s : String) : List Char :=
  s.data.map Char.toLower

/-- Whether `needle` is a prefix of `hay` (character lists). -/
def isPrefixB : List Char → List Char → Bool
  | [], _ => true
  | _ :: _, [] => false
  | a :: as, b :: bs => a = b && isPrefixB as bs

/-- Python `needle in hay` for strings: contiguous substring containment. -/
def isInfixB (needle : List Char) : List Char → Bool
  | [] => isPrefixB needle []
  | b :: bs => isPrefixB needle (b :: bs) || isInfixB needle bs

/-- One disjunct of the filter at `app.py:73-75`:
`r.get(field) and search_term_lower in r[field].lower()`.
A `None` field is falsy, and so is the empty string. -/
def codeField (t : String) : Option String → Bool
  | none => false
  | some s => if s = "" then false else isInfixB (lowerL t) (lowerL s)

/-- The list-comprehension predicate of `filtered_receipts` (`app.py:71-76`). -/
def codeMatches (t : String) (r : Receipt) : Bool :=
  codeField t r.nome_recebedor || codeField t r.cnpj_recebedor ||
    codeField t r.chave_pix

/-- The `filtered_receipts` computation (`app.py:69-78`): filter when the search term is
truthy (non-empty), otherwise pass the list through. -/
def filtered_receipts (all_receipts : List Receipt) (search_term : String) :
    List Receipt :=
  if search_term ≠ "" then all_receipts.filter (codeMatches search_term)
  else all_receipts

/-- Modelled from the spec, for comparison with `codeField`: a
case-insensitive substring match of the term against one optional field,
where a missing (absent or null) field never matches. -/
def specField (t : String) : Option String → Bool
  | none => false
  | some s => isInfixB (lowerL t) (lowerL s)

/-- Modelled from the spec, for comparison with `codeMatches`: the term
matches at least one of payee_name, payee_id, payment_key. -/
def specMatches (t : String) (r : Receipt) : Bool :=
  specField t r.nome_recebedor || specField t r.cnpj_recebedor ||
    specField t r.chave_pix

theorem isInfixB_nil_of_cons (a : Char) (as : List Char) :
    isInfixB (a :: as) [] = false := rfl

theorem lowerL_eq_nil_iff (t : String) : lowerL t = [] ↔ t = "" := by
  constructor
  · intro h
    have hd : t.data = [] := by simpa [lowerL] using h
    cases t with
    | mk l => cases hd; rfl
  · intro h; subst h; rfl

theorem codeField_eq_specField {t : String} (ht : t ≠ "") (f : Option String) :
    codeField t f = specField t f := by
  cases f with
  | none => rfl
  | some s =>
    by_cases hs : s = ""
    · subst hs
      have hl : lowerL t ≠ [] := fun h => ht ((lowerL_eq_nil_iff t).mp h)
      cases h : lowerL t with
      | nil => exact absurd h hl
      | cons a as =>
        simp only [codeField, specField, if_pos rfl]
        rw [show lowerL "" = [] from rfl, h]
        rfl
    · simp [codeField, specField, hs]

/-- A parsed transfer date, encoded as `y*10000 + m*100 + d`.  With the
month and day bounds checked by `parseDate` the encoding is injective, so
equality and `<` on `DateKey` agree with equality of the `DD/MM/YYYY`
dict keys and with chronological order. -/
abbrev DateKey := Nat

/-- Split a character list at every `-`. -/
def splitDash : List Char → List (List Char)
  | [] => [[]]
  | ch :: rest =>
    match splitDash rest with
    | [] => [[]]
    | g :: gs => if ch = '-' then [] :: g :: gs else (ch :: g) :: gs

def digitsVal : List Char → Nat → Option Nat
  | [], acc => some acc
  | ch :: rest, acc =>
    if ch.isDigit then digitsVal rest (acc * 10 + (ch.toNat - 48)) else none

/-- A non-empty all-digit group read as a number. -/
def digitsToNat? : List Char → Option Nat
  | [] => none
  | ch :: rest => digitsVal (ch :: rest) 0

/-- Python `datetime.strptime(s, '%Y-%m-%d')` (`app.py:87`): split on `-`, read
three numbers, validate month and day ranges; `none` models the raised
`ValueError` on anything else. -/
def parseDate (s : String) : Option DateKey :=
  match splitDash s.data with
  | [ys, ms, ds] =>
    match digitsToNat? ys, digitsToNat? ms, digitsToNat? ds with
    | some y, some m, some d =>
      if 1 ≤ m ∧ m ≤ 12 ∧ 1 ≤ d ∧ d ≤ 31 then some (y * 10000 + m * 100 + d)
      else none
    | _, _, _ => none
  | _ => none

/-- Ordered-association-list lookup; models Python dict access `m[k]`
(insertion order is the list order, as in Python dicts). -/
def lookupKey {α β : Type} [DecidableEq α] : List (α × β) → α → Option β
  | [], _ => none
  | (k, v) :: rest, a => if k = a then some v else lookupKey rest a

/-- The inner dict of `mapping`: date key → ordered receipt list. -/
abbrev DateBuckets := List (DateKey × List Receipt)

/-- The outer dict `mapping` (`app.py:83`): the key is the raw
`cnpj_recebedor` value, which Python happily lets be `None`. -/
abbrev Mapping := List (Option String × DateBuckets)

/-- The `cnpj_to_name` dict (`app.py:84`). -/
abbrev NameMap := List (Option String × Option String)

instance : DecidableEq (Mapping × NameMap) := instDecidableEqProd

/-- A `defaultdict(list)` append: `mapping[cnpj][date_str].append(receipt)`
restricted to the inner dict. -/
def appendInner (b : DateBuckets) (d : DateKey) (r : Receipt) : DateBuckets :=
  match b with
  | [] => [(d, [r])]
  | (d', rs) :: rest =>
    if d' = d then (d', rs ++ [r]) :: rest else (d', rs) :: appendInner rest d r

/-- The update `mapping[cnpj][date_str].append(receipt)` (`app.py:92`). -/
def appendOuter (m : Mapping) (c : Option String) (d : DateKey) (r : Receipt) :
    Mapping :=
  match m with
  | [] => [(c, appendInner [] d r)]
  | (c', b) :: rest =>
    if c' = c then (c', appendInner b d r) :: rest
    else (c', b) :: appendOuter rest c d r

/-- One iteration of the grouping loop (`app.py:85-92`): parse the date
(raising, i.e. `none`, on failure), record the first-seen name, append to
the two-level mapping. -/
def groupStep (st : Mapping × NameMap) (r : Receipt) :
    Option (Mapping × NameMap) :=
  match parseDate r.data_transferencia with
  | none => none
  | some d =>
    let c := r.cnpj_recebedor
    let nm := match lookupKey st.2 c with
      | some _ => st.2
      | none => st.2 ++ [(c, r.nome_recebedor)]
    some (appendOuter st.1 c d r, nm)

def groupAux (st : Mapping × NameMap) : List Receipt → Option (Mapping × NameMap)
  | [] => some st
  | r :: rest =>
    match groupStep st r with
    | none => none
    | some st' => groupAux st' rest

/-- The whole grouping loop over `filtered_receipts` (`app.py:83-92`). -/
def groupReceipts (rs : List Receipt) : Option (Mapping × NameMap) :=
  groupAux ([], []) rs

/-- Lookup of `mapping[c][d]`, with missing keys giving the empty bucket. -/
def bucketOf (m : Mapping) (c : Option String) (d : DateKey) : List Receipt :=
  (lookupKey ((lookupKey m c).getD []) d).getD []

/-- Selection flattening: `mapping.get(selected_cnpj)` defaulting to the
empty dict, then
`sorted(keys, key=strptime, reverse=True)`, then concatenate the buckets
(`app.py:104-109`).  `reverse=True` with a stable sort is sorting by the
flipped comparator. -/
def flattenSelection (m : Mapping) (c : Option String) : List Receipt :=
  let buckets := (lookupKey m c).getD []
  let sortedDates :=
    (buckets.map (·.1)).mergeSort (fun a b => decide (b ≤ a))
  sortedDates.flatMap (fun d => (lookupKey buckets d).getD [])

/-- One step of the `total_value` accumulation (`app.py:154`):
`total_value += item.get('valor', 0)`.  The `valor` column is always in
the select, so `dict.get`'s default never applies: a null amount arrives
as `None`, and `total_value += None` raises `TypeError`.  `none` models
the raise; once the loop has raised, no later step runs. -/
def addValor (acc : Option ℚ) (r : Receipt) : Option ℚ :=
  match acc, r.valor with
  | some a, some v => some (a + v)
  | _, _ => none

/-- The `total_value` accumulation over the display loop
(`app.py:151-154`); `none` models the loop raising `TypeError` at the
first null `valor`. -/
def totalValue (l : List Receipt) : Option ℚ :=
  l.foldl addValor (some 0)

/-- Insert a `,` after every third digit, on least-significant-first
digit lists; models the `,` grouping of the `:,.2f` format spec. -/
def groupThrees : List Char → List Char
  | a :: b :: c :: d :: rest => a :: b :: c :: ',' :: groupThrees (d :: rest)
  | l => l

/-- The integer part with thousands separators, most significant first. -/
def commafy (n : Nat) : String :=
  ⟨(groupThrees (Nat.toDigits 10 n).reverse).reverse⟩

/-- Exactly two decimal digits. -/
def twoDigits (n : Nat) : String :=
  ⟨[Char.ofNat (48 + n / 10 % 10), Char.ofNat (48 + n % 10)]⟩

/-- Python `f"{v:,.2f}"`: round to cents, digits grouped in threes by
`,`, decimal point `.`. -/
def formatUS (v : ℚ) : String :=
  let cents : Int := Int.floor (v * 100 + 1 / 2)
  let sign := if cents < 0 then "-" else ""
  let n := cents.natAbs
  sign ++ commafy (n / 100) ++ "." ++ twoDigits (n % 100)

/-- Python `str.replace` for a single-character pattern and replacement
(the only shape the source uses): replace every occurrence. -/
def replaceChar (a b : Char) (l : List Char) : List Char :=
  l.map (fun c => if c = a then b else c)

/-- The Brazilian currency rendering of `app.py:156` and `app.py:177`:
US format, then `,`→`X`, `.`→`,`, `X`→`.`, prefixed with `R$ `. -/
def formatBRL (v : ℚ) : String :=
  "R$ " ++
    ⟨replaceChar 'X' '.' (replaceChar '.' ','
      (replaceChar ',' 'X' (formatUS v).data))⟩

/-- The `valor_formatado` string (`app.py:156`):
`f"R$ {item.get('valor', 0):,.2f}"` with the separator swap.  As with
`addValor`, the always-selected `valor` column makes `dict.get` return
`None` (not the default 0) for a null amount, and formatting `None` with
`:,.2f` raises `TypeError`, modelled as `none`. -/
def valor_formatado (r : Receipt) : Option String :=
  match r.valor with
  | none => none
  | some v => some (formatBRL v)

/-- One backend answer to a `range(offset, offset+999)` query: a data
page, or a raised exception. -/
inductive PageResult where
  | ok (data : List Receipt) : PageResult
  | err : PageResult

/-- The pagination loop of `fetch_data_from_supabase` (`app.py:40-54`).
`backend` maps the requested offset to the response; `fuel` bounds the
number of iterations of the `while True` loop (`none` = the loop would
still be running).  The returned `Nat` counts the requests issued. -/
def fetchAux (backend : Nat → PageResult) :
    Nat → Nat → List Receipt → Nat → Option (List Receipt × Nat)
  | 0, _, _, _ => none
  | fuel + 1, offset, acc, reqs =>
    match backend offset with
    | .err => some (acc, reqs + 1)
    | .ok data =>
      if data = [] then some (acc, reqs + 1)
      else fetchAux backend fuel (offset + 1000) (acc ++ data) (reqs + 1)

/-- The whole `fetch_data_from_supabase` loop (`app.py:34-56`): offset 0 and
no data accumulated. -/
def fetch_data_from_supabase (backend : Nat → PageResult) (fuel : Nat) :
    Option (List Receipt × Nat) :=
  fetchAux backend fuel 0 [] 0

/-- The outcome of `requests.get(url)` + `PdfReader(...)` for one URL:
a download-level error (any `requests.exceptions.RequestException`,
including timeouts and `raise_for_status`), a PDF parse error raised by
`PdfReader`, or a parsed document given as its page list. -/
inductive FetchDoc where
  | reqError : FetchDoc
  | parseError : FetchDoc
  | doc (pages : List Nat) : FetchDoc

/-- The pages one receipt contributes to the merged PDF when the merge
completes: its document's pages in order, or none when the URL is absent
or its download failed. -/
def pagesOf (fetchDoc : String → FetchDoc) (r : Receipt) : List Nat :=
  match r.pdf_url with
  | none => []
  | some u =>
    match fetchDoc u with
    | .doc ps => ps
    | _ => []

/-- The body of the `for r in receipts` loop of `merge_pdfs_from_urls`
(`app.py:121-131`).  The `try/except requests.exceptions.RequestException`
swallows download errors only; a `PdfReader` parse error is not a
`RequestException` and propagates (`Except.error`). -/
def mergeAux (fetchDoc : String → FetchDoc) :
    List Receipt → List Nat → Except Unit (List Nat)
  | [], acc => .ok acc
  | r :: rest, acc =>
    match r.pdf_url with
    | none => mergeAux fetchDoc rest acc
    | some u =>
      match fetchDoc u with
      | .reqError => mergeAux fetchDoc rest acc
      | .parseError => .error ()
      | .doc ps => mergeAux fetchDoc rest (acc ++ ps)

/-- The `merge_pdfs_from_urls` operation (`app.py:116-135`): the merged page list, or
the propagated exception. -/
def merge_pdfs_from_urls (fetchDoc : String → FetchDoc) (receipts : List Receipt) :
    Except Unit (List Nat) :=
  mergeAux fetchDoc receipts []

/-! ### Receipts used in scenario statements and witnesses -/

/-- The claim C9 scenario receipt with the punctuated payee id. -/
def rCnpj : Receipt :=
  ⟨some "Alice", some "12.345.678/0001-99", none, "2024-01-05", some 100, none⟩

/-- The claim C9 scenario receipt with payment key `user123@bank`. -/
def rKey : Receipt :=
  ⟨some "Bob", some "98.765.432/0001-00", some "user123@bank", "2024-01-10",
    some 60, none⟩

/-- Scenario receipt: payee `"X"`, date 2024-01-05, amount 100.00. -/
def rX5 : Receipt :=
  ⟨some "Ana", some "X", none, "2024-01-05", some 100, some "a"⟩

/-- Scenario receipt: payee `"X"`, date 2024-01-10, amount 50.50. -/
def rX10 : Receipt :=
  ⟨some "Ana", some "X", none, "2024-01-10", some (101 / 2), some "b"⟩

/-- The mapping `groupReceipts [rX5, rX10]` builds for payee `"X"`. -/
def mX : Mapping :=
  [(some "X", [(20240105, [rX5]), (20240110, [rX10])])]

/-- The name map `groupReceipts [rX5, rX10]` builds. -/
def nmX : NameMap :=
  [(some "X", some "Ana")]

/-- A receipt with a linked document URL. -/
def rDoc : Receipt :=
  ⟨some "Carol", some "Y", none, "2024-02-01", some 10, some "u"⟩

/-- A receipt with no linked document. -/
def rNoDoc : Receipt :=
  ⟨some "Dan", some "Y", none, "2024-02-02", some 10, none⟩

/-- A receipt whose `valor` column is null. -/
def rNoVal : Receipt :=
  ⟨some "Eve", some "Z", none, "2024-03-01", none, none⟩

/-- Document oracle for the two-document merge scenario: document `a` has
2 pages, every other URL resolves to document `b` with 3 pages. -/
def fetchAB : String → FetchDoc :=
  fun u => if u = "a" then .doc [0, 1] else .doc [10, 11, 12]

/-- A receipt linking document `a`. -/
def rA : Receipt := ⟨some "A", some "Y", none, "2024-02-01", some 1, some "a"⟩

/-- A receipt linking document `b`. -/
def rB : Receipt := ⟨some "B", some "Y", none, "2024-02-02", some 2, some "b"⟩

/-- A fetched page of 1000 records for the pagination scenario. -/
def page1000 : List Receipt := List.replicate 1000 rX5

/-- Backend for the pagination scenario: offsets 0 and 1000 return a full
page, offset 2000 returns the empty page. -/
def backend3 : Nat → PageResult :=
  fun off => if off < 2000 then .ok page1000 else .ok []

/-- Backend for the partial-failure scenario: offsets 0 and 1000 return a
full page, the request at offset 2000 raises. -/
def backendErr : Nat → PageResult :=
  fun off => if off < 2000 then .ok page1000 else .err

/-! ### Filtering (claims C1, C9) -/

theorem codeMatches_eq_specMatches {t : String} (ht : t ≠ "") (r : Receipt) :
    codeMatches t r = specMatches t r := by
  simp [codeMatches, specMatches, codeField_eq_specField ht]

/-- C1: for a non-empty search term the filter keeps a receipt iff a
case-insensitive substring match of the term occurs against at least one
of payee_name, payee_id, payment_key (a missing field never matches), and
the empty search term returns the input unchanged, in order. -/
theorem c1_filter_iff_spec_match (R : List Receipt) (t : String) :
    (t ≠ "" → ∀ r : Receipt,
      r ∈ filtered_receipts R t ↔ r ∈ R ∧ specMatches t r = true) ∧
    filtered_receipts R "" = R := by
  constructor
  · intro ht r
    rw [filtered_receipts, if_pos ht, List.mem_filter,
      codeMatches_eq_specMatches ht]
  · simp [filtered_receipts]

theorem c1_filter_iff_spec_match_witness :
    (rKey ∈ filtered_receipts [rCnpj, rKey] "123" ↔
      rKey ∈ [rCnpj, rKey] ∧ specMatches "123" rKey = true) ∧
    filtered_receipts [rCnpj, rKey] "" = [rCnpj, rKey] :=
  ⟨(c1_filter_iff_spec_match [rCnpj, rKey] "123").1 (by decide) rKey,
    (c1_filter_iff_spec_match [rCnpj, rKey] "").2⟩

/-- C9 as stated is false: `"123"` is not a contiguous substring of the
punctuated payee id `"12.345.678/0001-99"` (Python's `in` finds no
occurrence: every `1`,`2` pair is followed by `.` or `-`), so that
receipt is dropped by the filter. -/
theorem c9_counterexample :
    rCnpj ∉ filtered_receipts [rCnpj, rKey] "123" := by decide

/-- C9 amended: the search term `"123"` keeps the receipt whose
payment_key is `user123@bank` and drops the receipt whose payee_id is
`12.345.678/0001-99`, because the match is a substring test against the
raw punctuated string. -/
theorem c9_filter_123_keeps_only_payment_key :
    filtered_receipts [rCnpj, rKey] "123" = [rKey] := by decide

/-! ### Grouping (claims C2, C3) -/

/-- The (payee id, date) key predicate a receipt must satisfy to land in
a given bucket. -/
def keyPred (c : Option String) (d : DateKey) (r : Receipt) : Bool :=
  decide (r.cnpj_recebedor = c) && decide (parseDate r.data_transferencia = some d)

theorem lookupKey_appendInner (b : DateBuckets) (d : DateKey) (r : Receipt)
    (d' : DateKey) :
    lookupKey (appendInner b d r) d' =
      if d' = d then some (((lookupKey b d).getD []) ++ [r])
      else lookupKey b d' := by
  induction b with
  | nil =>
    by_cases h : d' = d
    · subst h; simp [appendInner, lookupKey]
    · simp [appendInner, lookupKey, h, Ne.symm h]
  | cons p rest ih =>
    obtain ⟨d₀, rs₀⟩ := p
    by_cases h0 : d₀ = d
    · subst h0
      by_cases h : d' = d₀
      · subst h; simp [appendInner, lookupKey]
      · simp [appendInner, lookupKey, h, Ne.symm h]
    · by_cases h : d₀ = d'
      · subst h
        simp [appendInner, lookupKey, h0, Ne.symm h0]
      · simp [appendInner, lookupKey, h0, h, ih]

theorem lookupKey_appendOuter (m : Mapping) (c : Option String) (d : DateKey)
    (r : Receipt) (c' : Option String) :
    lookupKey (appendOuter m c d r) c' =
      if c' = c then some (appendInner ((lookupKey m c).getD []) d r)
      else lookupKey m c' := by
  induction m with
  | nil =>
    by_cases h : c' = c
    · subst h; simp [appendOuter, lookupKey]
    · simp [appendOuter, lookupKey, h, Ne.symm h]
  | cons p rest ih =>
    obtain ⟨c₀, b₀⟩ := p
    by_cases h0 : c₀ = c
    · subst h0
      by_cases h : c' = c₀
      · subst h; simp [appendOuter, lookupKey]
      · simp [appendOuter, lookupKey, h, Ne.symm h]
    · by_cases h : c₀ = c'
      · subst h
        simp [appendOuter, lookupKey, h0, Ne.symm h0]
      · simp [appendOuter, lookupKey, h0, h, ih]

theorem bucketOf_appendOuter (m : Mapping) (c : Option String) (d : DateKey)
    (r : Receipt) (c' : Option String) (d' : DateKey) :
    bucketOf (appendOuter m c d r) c' d' =
      if c' = c ∧ d' = d then bucketOf m c d ++ [r] else bucketOf m c' d' := by
  by_cases hc : c' = c
  · subst hc
    rw [bucketOf, lookupKey_appendOuter, if_pos rfl, Option.getD_some,
      lookupKey_appendInner]
    by_cases hd : d' = d
    · subst hd; simp [bucketOf]
    · simp [bucketOf, hd]
  · simp [bucketOf, lookupKey_appendOuter, hc]

theorem lookupKey_append_singleton {α β : Type} [DecidableEq α]
    (l : List (α × β)) (c : α) (n : β) (c' : α) :
    lookupKey (l ++ [(c, n)]) c' =
      match lookupKey l c' with
      | some v => some v
      | none => if c = c' then some n else none := by
  induction l with
  | nil => simp [lookupKey]
  | cons p rest ih =>
    obtain ⟨k, v⟩ := p
    by_cases h : k = c'
    · simp [lookupKey, h]
    · simp [lookupKey, h, ih]

/-- Full characterization of the grouping loop's effect on an arbitrary
starting state: every `(payee, date)` bucket grows by exactly the
receipts of the processed list with that key, in their original order,
and the name map lookup is first-write-wins. -/
theorem groupAux_spec (l : List Receipt) :
    ∀ st st' : Mapping × NameMap, groupAux st l = some st' →
    (∀ (c : Option String) (d : DateKey),
      bucketOf st'.1 c d = bucketOf st.1 c d ++ l.filter (keyPred c d)) ∧
    (∀ c : Option String,
      lookupKey st'.2 c =
        match lookupKey st.2 c with
        | some v => some v
        | none =>
          (l.find? (fun r => decide (r.cnpj_recebedor = c))).map
            (·.nome_recebedor)) := by
  induction l with
  | nil =>
    intro st st' h
    cases h
    constructor
    · intro c d; simp
    · intro c; cases hl : lookupKey st.2 c <;> simp [hl]
  | cons r rest ih =>
    intro st st' h
    rw [groupAux] at h
    cases hstep : groupStep st r with
    | none => rw [hstep] at h; exact absurd h (by simp)
    | some st₁ =>
      rw [hstep] at h
      obtain ⟨ihb, ihn⟩ := ih st₁ st' h
      simp only [groupStep] at hstep
      cases hp : parseDate r.data_transferencia with
      | none => rw [hp] at hstep; exact absurd hstep (by simp)
      | some d₀ =>
        rw [hp] at hstep
        rw [Option.some.injEq] at hstep
        have hm : st₁.1 = appendOuter st.1 r.cnpj_recebedor d₀ r := by
          rw [← hstep]
        have hnm : st₁.2 =
            (match lookupKey st.2 r.cnpj_recebedor with
              | some _ => st.2
              | none => st.2 ++ [(r.cnpj_recebedor, r.nome_recebedor)]) := by
          rw [← hstep]
        constructor
        · intro c d
          rw [ihb c d, hm, bucketOf_appendOuter]
          by_cases hc : c = r.cnpj_recebedor
          · by_cases hd : d = d₀
            · have hk : keyPred r.cnpj_recebedor d₀ r = true := by
                simp [keyPred, hp]
              rw [if_pos ⟨hc, hd⟩]
              simp [hc, hd, hk, List.filter_cons, List.append_assoc]
            · have hk : keyPred c d r = false := by
                simp [keyPred, hp, Ne.symm hd]
              rw [if_neg (fun hh => hd hh.2)]
              simp [hk, List.filter_cons]
          · have hk : keyPred c d r = false := by
              simp [keyPred, Ne.symm hc]
            rw [if_neg (fun hh => hc hh.1)]
            simp [hk, List.filter_cons]
        · intro c
          rw [ihn c, hnm]
          cases hl : lookupKey st.2 r.cnpj_recebedor with
          | some v₀ =>
            simp only [hl]
            by_cases hc : r.cnpj_recebedor = c
            · rw [← hc, hl]
            · cases hl' : lookupKey st.2 c with
              | some v => simp [hl']
              | none => simp [hl', hc]
          | none =>
            simp only [hl, lookupKey_append_singleton]
            by_cases hc : r.cnpj_recebedor = c
            · rw [← hc, hl]
              simp [hc]
            · cases hl' : lookupKey st.2 c with
              | some v => simp [hl']
              | none => simp [hl', hc]

/-- C2: grouping over a successfully processed list is a partition keyed
by `(payee id, parsed date)`: each bucket holds exactly the receipts of
the list with that key, in their original relative order (so every
receipt lies in exactly one bucket and the buckets' union is the whole
list), and the name map holds the first-seen name per payee id, which
later receipts never override. -/
theorem c2_grouping_partition_first_name (rs : List Receipt)
    (m : Mapping) (nm : NameMap) (h : groupReceipts rs = some (m, nm)) :
    (∀ (c : Option String) (d : DateKey),
      bucketOf m c d = rs.filter (keyPred c d)) ∧
    (∀ c : Option String,
      lookupKey nm c =
        (rs.find? (fun r => decide (r.cnpj_recebedor = c))).map
          (·.nome_recebedor)) := by
  obtain ⟨hb, hn⟩ := groupAux_spec rs ([], []) (m, nm) h
  constructor
  · intro c d
    simpa [bucketOf, lookupKey] using hb c d
  · intro c
    simpa [lookupKey] using hn c

theorem c2_grouping_partition_first_name_witness :
    bucketOf mX (some "X") 20240105 = [rX5] ∧
    lookupKey nmX (some "X") = some (some "Ana") := by
  have h := c2_grouping_partition_first_name [rX5, rX10] mX nmX rfl
  refine ⟨?_, ?_⟩
  · rw [h.1 (some "X") 20240105]; decide
  · rw [h.2 (some "X")]; decide

/-! Distinctness of the date keys inside each payee's buckets, needed to
turn the sort's `≤` into strict descent. -/

def InnerNodup (m : Mapping) : Prop :=
  ∀ (c : Option String) (b : DateBuckets),
    lookupKey m c = some b → (b.map (·.1)).Nodup

theorem mem_keys_appendInner (b : DateBuckets) (d : DateKey) (r : Receipt)
    (x : DateKey) :
    x ∈ (appendInner b d r).map (·.1) ↔ x ∈ b.map (·.1) ∨ x = d := by
  induction b with
  | nil => simp [appendInner]
  | cons p rest ih =>
    obtain ⟨d₀, rs₀⟩ := p
    by_cases h0 : d₀ = d
    · subst h0
      simp [appendInner]
      tauto
    · simp [appendInner, h0, ih]
      tauto

theorem keys_nodup_appendInner (b : DateBuckets) (d : DateKey) (r : Receipt)
    (h : (b.map (·.1)).Nodup) : ((appendInner b d r).map (·.1)).Nodup := by
  induction b with
  | nil => simp [appendInner]
  | cons p rest ih =>
    obtain ⟨d₀, rs₀⟩ := p
    rw [List.map_cons, List.nodup_cons] at h
    by_cases h0 : d₀ = d
    · subst h0
      simpa [appendInner, List.nodup_cons] using h
    · rw [appendInner, if_neg h0, List.map_cons, List.nodup_cons]
      refine ⟨?_, ih h.2⟩
      intro hmem
      rcases (mem_keys_appendInner rest d r d₀).mp hmem with hin | heq
      · exact h.1 hin
      · exact h0 heq

theorem innerNodup_appendOuter (m : Mapping) (c : Option String) (d : DateKey)
    (r : Receipt) (h : InnerNodup m) : InnerNodup (appendOuter m c d r) := by
  intro c' b hb
  rw [lookupKey_appendOuter] at hb
  by_cases hc : c' = c
  · rw [if_pos hc, Option.some.injEq] at hb
    subst hb
    apply keys_nodup_appendInner
    cases hl : lookupKey m c with
    | none => simp
    | some b₀ => simpa using h c b₀ hl
  · rw [if_neg hc] at hb
    exact h c' b hb

theorem groupAux_innerNodup (l : List Receipt) :
    ∀ st st' : Mapping × NameMap, InnerNodup st.1 →
      groupAux st l = some st' → InnerNodup st'.1 := by
  induction l with
  | nil =>
    intro st st' hst h
    cases h
    exact hst
  | cons r rest ih =>
    intro st st' hst h
    rw [groupAux] at h
    cases hstep : groupStep st r with
    | none => rw [hstep] at h; exact absurd h (by simp)
    | some st₁ =>
      rw [hstep] at h
      refine ih st₁ st' ?_ h
      simp only [groupStep] at hstep
      cases hp : parseDate r.data_transferencia with
      | none => rw [hp] at hstep; exact absurd hstep (by simp)
      | some d₀ =>
        rw [hp, Option.some.injEq] at hstep
        have hm : st₁.1 = appendOuter st.1 r.cnpj_recebedor d₀ r := by
          rw [← hstep]
        rw [hm]
        exact innerNodup_appendOuter _ _ _ _ hst

/-- C3: the flattened selection for any payee id is the concatenation of
that payee's date buckets, with the distinct dates taken in strictly
descending order, and (by the C2 bucket characterization used on the
right-hand side) each bucket keeps the receipts' original relative
order. -/
theorem c3_flatten_descending (rs : List Receipt) (m : Mapping) (nm : NameMap)
    (c : Option String) (h : groupReceipts rs = some (m, nm)) :
    ∃ ds : List DateKey,
      ds.Perm (((lookupKey m c).getD []).map (·.1)) ∧
      ds.Pairwise (fun a b => b < a) ∧
      flattenSelection m c =
        ds.flatMap (fun d => rs.filter (keyPred c d)) := by
  refine ⟨(((lookupKey m c).getD []).map (·.1)).mergeSort
      (fun a b => decide (b ≤ a)), List.mergeSort_perm _ _, ?_, ?_⟩
  · have hnodup : ((((lookupKey m c).getD []).map (·.1)) :
        List DateKey).Nodup := by
      cases hl : lookupKey m c with
      | none => simp
      | some b =>
        have hinv := groupAux_innerNodup rs ([], []) (m, nm)
          (fun c' b' hb' => by simp [lookupKey] at hb') h
        simpa using hinv c b hl
    have hsorted := @List.sorted_mergeSort DateKey
      (fun a b : DateKey => decide (b ≤ a))
      (fun a b c hab hbc => by
        have h1 : b ≤ a := by simpa using hab
        have h2 : c ≤ b := by simpa using hbc
        simpa using le_trans h2 h1)
      (fun a b => by simpa using Nat.le_total b a)
      (((lookupKey m c).getD []).map (·.1))
    have hnd : ((((lookupKey m c).getD []).map (·.1)).mergeSort
        (fun a b => decide (b ≤ a))).Nodup :=
      (List.mergeSort_perm _ _).symm.nodup hnodup
    refine (hsorted.and hnd).imp ?_
    intro a b hab
    have h1 : b ≤ a := by simpa using hab.1
    exact lt_of_le_of_ne h1 (Ne.symm hab.2)
  · have hfun : (fun d => (lookupKey ((lookupKey m c).getD []) d).getD []) =
        fun d => rs.filter (keyPred c d) := by
      funext d
      have hb := (groupAux_spec rs ([], []) (m, nm) h).1 c d
      simpa [bucketOf, lookupKey] using hb
    simp only [flattenSelection]
    rw [hfun]

theorem c3_flatten_descending_witness :
    ∃ ds : List DateKey,
      ds.Perm (((lookupKey mX (some "X")).getD []).map (·.1)) ∧
      ds.Pairwise (fun a b => b < a) ∧
      flattenSelection mX (some "X") =
        ds.flatMap (fun d => [rX5, rX10].filter (keyPred (some "X") d)) :=
  c3_flatten_descending [rX5, rX10] mX nmX (some "X") rfl

/-! ### Totals and currency formatting (claims C4, C10) -/

theorem foldl_addValor_none (l : List Receipt) :
    l.foldl addValor none = none := by
  induction l with
  | nil => rfl
  | cons r rest ih =>
    rw [List.foldl_cons]
    have h : addValor none r = none := by
      cases hv : r.valor <;> simp [addValor, hv]
    rw [h]
    exact ih

theorem foldl_addValor_mem_none (r : Receipt) (hr : r.valor = none) :
    ∀ (l : List Receipt) (acc : Option ℚ), r ∈ l →
      l.foldl addValor acc = none := by
  intro l
  induction l with
  | nil => intro acc h; simp at h
  | cons x rest ih =>
    intro acc hmem
    rw [List.foldl_cons]
    rcases List.mem_cons.mp hmem with heq | hmem'
    · subst heq
      have h : addValor acc r = none := by
        cases acc <;> simp [addValor, hr]
      rw [h]
      exact foldl_addValor_none rest
    · exact ih _ hmem'

theorem foldl_addValor_some (l : List Receipt) :
    ∀ (vs : List ℚ) (a : ℚ), l.map (·.valor) = vs.map some →
      l.foldl addValor (some a) = some (a + vs.sum) := by
  induction l with
  | nil =>
    intro vs a hv
    cases vs with
    | nil => simp
    | cons v vs' => simp at hv
  | cons r rest ih =>
    intro vs a hv
    cases vs with
    | nil => simp at hv
    | cons v vs' =>
      rw [List.map_cons, List.map_cons] at hv
      injection hv with h1 h2
      rw [List.foldl_cons]
      have hstep : addValor (some a) r = some (a + v) := by
        simp [addValor, h1]
      rw [hstep, ih vs' (a + v) h2, List.sum_cons]
      congr 1
      ring

/-- Whenever every receipt's `valor` is present (the `valor` projection is
`vs.map some`), the loop never raises and the total is the sum of `vs`. -/
theorem totalValue_eq_sum (l : List Receipt) (vs : List ℚ)
    (hv : l.map (·.valor) = vs.map some) :
    totalValue l = some vs.sum := by
  rw [totalValue, foldl_addValor_some l vs 0 hv, zero_add]

/-- C4: whenever every receipt of the flattened list has a non-null
amount — its `valor` projection is some list `vs` of rationals — the
displayed running total is exactly the arithmetic sum of `vs`: each
receipt counted once, none omitted; and the spec scenario holds:
grouping the two payee-`"X"` receipts dated 2024-01-05 (amount 100.00)
and 2024-01-10 (amount 50.50) and flattening gives the 2024-01-10
receipt first, with total `301/2 = 150.50` displayed as `R$ 150,50`. -/
theorem c4_total_sum_and_display (l : List Receipt) (vs : List ℚ)
    (hv : l.map (·.valor) = vs.map some) :
    totalValue l = some vs.sum ∧
    groupReceipts [rX5, rX10] = some (mX, nmX) ∧
    flattenSelection mX (some "X") = [rX10, rX5] ∧
    totalValue [rX10, rX5] = some (301 / 2) ∧
    formatBRL (301 / 2) = "R$ 150,50" := by
  have ht : totalValue [rX10, rX5] = some (301 / 2) := by
    rw [totalValue_eq_sum [rX10, rX5] [101 / 2, 100] rfl]
    norm_num [List.sum_cons, List.sum_nil]
  have hfloor : Int.floor ((301 : ℚ) / 2 * 100 + 1 / 2) = 15050 := by
    norm_num
  refine ⟨totalValue_eq_sum l vs hv, rfl, ?_, ht, ?_⟩
  · simp [flattenSelection, mX, lookupKey, List.mergeSort, List.merge]
  · simp only [formatBRL, formatUS]
    rw [hfloor]
    decide

theorem c4_total_sum_and_display_witness :
    totalValue [rX10, rX5] = some ([(101 : ℚ) / 2, 100].sum) ∧
    groupReceipts [rX5, rX10] = some (mX, nmX) ∧
    flattenSelection mX (some "X") = [rX10, rX5] ∧
    totalValue [rX10, rX5] = some (301 / 2) ∧
    formatBRL (301 / 2) = "R$ 150,50" :=
  c4_total_sum_and_display [rX10, rX5] [101 / 2, 100] rfl

/-- C10 as stated is false: `dict.get`'s default applies only to an
absent key, and the `valor` column is always part of the select, so a
null amount arrives as `None`; then `total_value += None` raises
`TypeError` (the total is an exception, not a sum treating the amount as
0) and `f"R$ {item.get('valor', 0):,.2f}"` raises likewise instead of
rendering `R$ 0,00`. -/
theorem c10_counterexample_null_valor_raises :
    totalValue [rNoVal] = none ∧ valor_formatado rNoVal = none :=
  ⟨rfl, rfl⟩

/-- C10 amended: a null `valor` is not treated as 0 — it is returned as
`None` by `item.get('valor', 0)` (the default 0 applies only to an
absent key, and the column is always selected), so the running total
raises `TypeError` whenever a null-`valor` receipt is in the flattened
list, and that receipt's per-receipt amount rendering raises as well;
both raises are modelled as `none`. -/
theorem c10_null_valor_raises (l : List Receipt) (r : Receipt)
    (hr : r.valor = none) :
    (r ∈ l → totalValue l = none) ∧ valor_formatado r = none := by
  constructor
  · intro hmem
    rw [totalValue]
    exact foldl_addValor_mem_none r hr l (some 0) hmem
  · simp [valor_formatado, hr]

theorem c10_null_valor_raises_witness :
    totalValue [rX5, rNoVal] = none ∧ valor_formatado rNoVal = none := by
  have h := c10_null_valor_raises [rX5, rNoVal] rNoVal rfl
  exact ⟨h.1 (by simp), h.2⟩

/-! ### PDF merging (claims C5, C8) -/

theorem mergeAux_ok (fetchDoc : String → FetchDoc) (rs : List Receipt) :
    ∀ acc : List Nat,
      (∀ r ∈ rs, ∀ u, r.pdf_url = some u → fetchDoc u ≠ FetchDoc.parseError) →
      mergeAux fetchDoc rs acc =
        .ok (acc ++ rs.flatMap (pagesOf fetchDoc)) := by
  induction rs with
  | nil => intro acc h; simp [mergeAux]
  | cons r rest ih =>
    intro acc h
    have hrest : ∀ x ∈ rest, ∀ u, x.pdf_url = some u →
        fetchDoc u ≠ FetchDoc.parseError :=
      fun x hx => h x (List.mem_cons_of_mem _ hx)
    cases hu : r.pdf_url with
    | none =>
      rw [show mergeAux fetchDoc (r :: rest) acc = mergeAux fetchDoc rest acc
          from by simp only [mergeAux, hu],
        ih acc hrest]
      simp [pagesOf, hu]
    | some u =>
      cases hf : fetchDoc u with
      | reqError =>
        rw [show mergeAux fetchDoc (r :: rest) acc = mergeAux fetchDoc rest acc
            from by simp only [mergeAux, hu, hf],
          ih acc hrest]
        simp [pagesOf, hu, hf]
      | parseError => exact absurd hf (h r (List.mem_cons_self _ _) u hu)
      | doc ps =>
        rw [show mergeAux fetchDoc (r :: rest) acc =
              mergeAux fetchDoc rest (acc ++ ps)
            from by simp only [mergeAux, hu, hf],
          ih (acc ++ ps) hrest]
        simp [pagesOf, hu, hf, List.append_assoc]

/-- C5 as stated is false: the `except` clause at `app.py:130` catches
only `requests.exceptions.RequestException`, so a PDF parse failure
(`PdfReader` raising on a downloaded body) is not swallowed — it
propagates and aborts the whole merge. -/
theorem c5_counterexample_parse_error_aborts :
    merge_pdfs_from_urls (fun _ => FetchDoc.parseError) [rDoc] =
      Except.error () := rfl

/-- C5 amended: a download failure of a single receipt's document is
swallowed at the per-receipt level — that receipt contributes zero pages
and processing continues, and the merge never fails because of download
failures (or missing URLs); but a parse failure of a downloaded document
propagates and aborts the merge. -/
theorem c5_download_errors_swallowed (fetchDoc : String → FetchDoc)
    (rs : List Receipt)
    (h : ∀ r ∈ rs, ∀ u, r.pdf_url = some u →
      fetchDoc u ≠ FetchDoc.parseError) :
    merge_pdfs_from_urls fetchDoc rs =
      .ok (rs.flatMap (pagesOf fetchDoc)) := by
  simpa [merge_pdfs_from_urls] using mergeAux_ok fetchDoc rs [] h

theorem c5_download_errors_swallowed_witness :
    merge_pdfs_from_urls (fun _ => FetchDoc.reqError) [rDoc, rNoDoc] =
      Except.ok ([rDoc, rNoDoc].flatMap
        (pagesOf (fun _ => FetchDoc.reqError))) :=
  c5_download_errors_swallowed _ _ (fun r hr u hu => by simp)

/-- C8: when every present document URL downloads and parses, the merge
succeeds and its page list is the input-ordered concatenation of each
receipt's document pages; in particular documents `a` (2 pages) and `b`
(3 pages) merge to exactly 5 pages in a-then-b order, and a receipt with
no URL contributes 0 pages without raising. -/
theorem c8_merge_order_matches_input (fetchDoc : String → FetchDoc)
    (rs : List Receipt)
    (h : ∀ r ∈ rs, ∀ u, r.pdf_url = some u →
      ∃ ps, fetchDoc u = FetchDoc.doc ps) :
    merge_pdfs_from_urls fetchDoc rs =
      .ok (rs.flatMap (pagesOf fetchDoc)) ∧
    merge_pdfs_from_urls fetchAB [rA, rB] = .ok [0, 1, 10, 11, 12] ∧
    merge_pdfs_from_urls fetchAB [rNoDoc] = .ok [] := by
  refine ⟨?_, rfl, rfl⟩
  have h' : ∀ r ∈ rs, ∀ u, r.pdf_url = some u →
      fetchDoc u ≠ FetchDoc.parseError := by
    intro r hr u hu hpe
    obtain ⟨ps, hps⟩ := h r hr u hu
    rw [hps] at hpe
    exact FetchDoc.noConfusion hpe
  simpa [merge_pdfs_from_urls] using mergeAux_ok fetchDoc rs [] h'

theorem c8_merge_order_matches_input_witness :
    merge_pdfs_from_urls fetchAB [rA, rB] =
      .ok ([rA, rB].flatMap (pagesOf fetchAB)) ∧
    merge_pdfs_from_urls fetchAB [rA, rB] = .ok [0, 1, 10, 11, 12] ∧
    merge_pdfs_from_urls fetchAB [rNoDoc] = .ok [] :=
  c8_merge_order_matches_input fetchAB [rA, rB] (by
    intro r hr u hu
    by_cases h' : u = "a"
    · exact ⟨[0, 1], by simp [fetchAB, h']⟩
    · exact ⟨[10, 11, 12], by simp [fetchAB, h']⟩)

/-! ### Pagination (claims C6, C7) -/

/-- Running the fetch loop across `n` consecutive non-empty pages: the
offset advances by 1000 per page, the pages' records accumulate in
order, and one request is issued per page. -/
theorem fetchAux_steps :
    ∀ (n : Nat) (pageData : Nat → List Receipt) (backend : Nat → PageResult)
      (fuel offset : Nat) (acc : List Receipt) (reqs : Nat),
      (∀ k, k < n →
        backend (offset + 1000 * k) = .ok (pageData k) ∧ pageData k ≠ []) →
      fetchAux backend (n + fuel) offset acc reqs =
        fetchAux backend fuel (offset + 1000 * n)
          (acc ++ (List.range n).flatMap pageData) (reqs + n) := by
  intro n
  induction n with
  | zero =>
    intro pageData backend fuel offset acc reqs _
    simp
  | succ n ih =>
    intro pageData backend fuel offset acc reqs h
    obtain ⟨h0, h0ne⟩ := h 0 (Nat.succ_pos n)
    rw [show offset + 1000 * 0 = offset by ring] at h0
    rw [show n + 1 + fuel = (n + fuel) + 1 by ring]
    rw [show fetchAux backend ((n + fuel) + 1) offset acc reqs =
        fetchAux backend (n + fuel) (offset + 1000) (acc ++ pageData 0)
          (reqs + 1)
      from by simp only [fetchAux, h0]; rw [if_neg h0ne]]
    rw [ih (fun k => pageData (k + 1)) backend fuel (offset + 1000)
      (acc ++ pageData 0) (reqs + 1)
      (fun k hk => by
        have := h (k + 1) (Nat.succ_lt_succ hk)
        rwa [show offset + 1000 * (k + 1) = offset + 1000 + 1000 * k
          by ring] at this)]
    rw [List.range_succ_eq_map, List.flatMap_cons, List.flatMap_map]
    rw [show offset + 1000 + 1000 * n = offset + 1000 * (n + 1) by ring,
      show reqs + 1 + n = reqs + (n + 1) by ring, List.append_assoc]

/-- C6: the fetch loop pages with fixed size 1000 (requesting offsets
`0, 1000, 2000, …`), accumulates each non-empty page's records in order,
and stops at the first page with zero records, having issued one request
per page plus the final empty one.  With enough fuel (`n + m + 1`
iterations for `n` data pages) the loop terminates with exactly the
concatenation of the `n` pages and `n + 1` requests issued. -/
theorem c6_fetch_paginates_until_empty (backend : Nat → PageResult)
    (pageData : Nat → List Receipt) (n m : Nat)
    (hpages : ∀ k, k < n →
      backend (1000 * k) = .ok (pageData k) ∧ pageData k ≠ [])
    (hend : backend (1000 * n) = .ok []) :
    fetch_data_from_supabase backend (n + (m + 1)) =
      some ((List.range n).flatMap pageData, n + 1) := by
  rw [fetch_data_from_supabase,
    fetchAux_steps n pageData backend (m + 1) 0 [] 0
      (fun k hk => by simpa using hpages k hk)]
  simp only [Nat.zero_add, List.nil_append]
  simp only [fetchAux, hend]
  simp

/-- C7: when the request at offset `1000 * n` raises (after `n` good
pages), the loop aborts immediately and returns the records accumulated
so far — a partial result, not an exception. -/
theorem c7_fetch_error_keeps_partial (backend : Nat → PageResult)
    (pageData : Nat → List Receipt) (n m : Nat)
    (hpages : ∀ k, k < n →
      backend (1000 * k) = .ok (pageData k) ∧ pageData k ≠ [])
    (herr : backend (1000 * n) = .err) :
    fetch_data_from_supabase backend (n + (m + 1)) =
      some ((List.range n).flatMap pageData, n + 1) := by
  rw [fetch_data_from_supabase,
    fetchAux_steps n pageData backend (m + 1) 0 [] 0
      (fun k hk => by simpa using hpages k hk)]
  simp only [Nat.zero_add, List.nil_append]
  simp only [fetchAux, herr]

theorem c6_fetch_paginates_until_empty_witness :
    fetch_data_from_supabase backend3 10 =
      some ((List.range 2).flatMap (fun _ => page1000), 3) ∧
    ((List.range 2).flatMap (fun _ => page1000)).length = 2000 := by
  constructor
  · exact c6_fetch_paginates_until_empty backend3 (fun _ => page1000) 2 7
      (fun k hk => by
        refine ⟨?_, List.ne_nil_of_length_pos
          (by rw [page1000, List.length_replicate]; norm_num)⟩
        have h : 1000 * k < 2000 := by omega
        rw [backend3, if_pos h])
      (by rw [backend3]; norm_num)
  · rw [show List.range 2 = [0, 1] from rfl]
    simp only [List.flatMap_cons, List.flatMap_nil, List.append_nil,
      List.length_append, page1000, List.length_replicate]

theorem c7_fetch_error_keeps_partial_witness :
    fetch_data_from_supabase backendErr 10 =
      some ((List.range 2).flatMap (fun _ => page1000), 3) ∧
    ((List.range 2).flatMap (fun _ => page1000)).length = 2000 := by
  constructor
  · exact c7_fetch_error_keeps_partial backendErr (fun _ => page1000) 2 7
      (fun k hk => by
        refine ⟨?_, List.ne_nil_of_length_pos
          (by rw [page1000, List.length_replicate]; norm_num)⟩
        have h : 1000 * k < 2000 := by omega
        rw [backendErr, if_pos h])
      (by rw [backendErr]; norm_num)
  · rw [show List.range 2 = [0, 1] from rfl]
    simp only [List.flatMap_cons, List.flatMap_nil, List.append_nil,
      List.length_append, page1000, List.length_replicate]
